import Mathlib

/-!
# Verification of the ops-service governance core

A shallow embedding of the rate-limiting and usage-accounting core of the
service (`src/app/governance.py`, its metrics counter from `src/metrics.py`,
and the admission-relevant control flow of `src/main.py`), together with
proofs and refutations of the specification's claims about it.

Modelling conventions:
* Wall-clock instants (`time.time()`, fractional seconds) are rationals; the
  clock is an external input, so `now` is passed explicitly to each operation.
* The process-wide mutable globals (`user_requests` and the per-user value of
  the `RATE_LIMIT_EXCEEDED` Prometheus counter) are bundled into a `GovState`
  that each operation takes and returns.
* The Python dict `RATE_LIMITS` is an association list; dict membership and
  assignment are modelled pointwise on `String → Option _` maps.
* The limit-policy table is the module-level constant `RATE_LIMITS`; the
  functions take it as an explicit first argument so that statements about
  hypothetical configurations can be made.  Instantiating that argument with
  `RATE_LIMITS` gives exactly the source code's behaviour.
-/

/-- The limit-policy table `RATE_LIMITS` from `governance.py`:
`{"alice": 30, "bob": 1, "premium": 100, "default": 10}`. -/
def RATE_LIMITS : List (String × Int) :=
  [("alice", 30), ("bob", 1), ("premium", 100), ("default", 10)]

/-- Python `dict.get(k)`: first binding of `k` in the association list. -/
def dictGet (d : List (String × Int)) (k : String) : Option Int :=
  match d with
  | [] => none
  | (k2, v) :: rest => if k2 = k then some v else dictGet rest k

/-- `get_user_limit` from `governance.py`:
`RATE_LIMITS.get(user, RATE_LIMITS["default"])`.
Every table considered in this development contains a `"default"` entry, as
the source table does; the final `0` arm is unreachable for such tables (in
Python a table without `"default"` would raise `KeyError`). -/
def get_user_limit (limits : List (String × Int)) (user : String) : Int :=
  match dictGet limits user with
  | some v => v
  | none =>
    match dictGet limits "default" with
    | some v => v
    | none => 0

/-- The global mutable state of `governance.py`: the `user_requests` dict and
the per-user values of the `RATE_LIMIT_EXCEEDED` counter declared in
`metrics.py` (`Counter("llm_rate_limit_exceeded_total", ..., ["user"])`). -/
structure GovState where
  user_requests : String → Option (List ℚ)
  rate_limit_exceeded : String → ℕ

/-- Dict assignment `user_requests[user] = l`. -/
def setEntry (m : String → Option (List ℚ)) (user : String) (l : List ℚ) :
    String → Option (List ℚ) :=
  fun v => if v = user then some l else m v

/-- `RATE_LIMIT_EXCEEDED.labels(user=user).inc()`. -/
def incCounter (c : String → ℕ) (user : String) : String → ℕ :=
  fun v => if v = user then c v + 1 else c v

/-- The user's current timestamp list: `user_requests[user]`, reading a
missing entry as the empty list (the code lazily initialises missing entries
to `[]` before using them, so this is the value every read sees). -/
def ledgerOf (s : GovState) (user : String) : List ℚ :=
  match s.user_requests user with
  | none => []
  | some l => l

/-- The list comprehension used by both `check_rate_limit` and
`get_user_stats`: `[t for t in ts if t > now - 60]` — the spec's
`Ledger.prune`. -/
def prune (now : ℚ) (ts : List ℚ) : List ℚ :=
  ts.filter (fun t => decide (now - 60 < t))

/-- `check_rate_limit` from `governance.py`.  Returns the admission decision
(`true` = admitted) and the updated global state.  Steps, as in the source:
lazily initialise the user's entry, overwrite it with the pruned list, deny
and bump the metric if `len >= limit`, otherwise append `now` and admit. -/
def check_rate_limit (limits : List (String × Int)) (user : String) (now : ℚ)
    (s : GovState) : Bool × GovState :=
  let limit := get_user_limit limits user
  let pruned := prune now (ledgerOf s user)
  if limit ≤ (pruned.length : Int) then
    (false,
      { user_requests := setEntry s.user_requests user pruned,
        rate_limit_exceeded := incCounter s.rate_limit_exceeded user })
  else
    (true,
      { user_requests := setEntry s.user_requests user (pruned ++ [now]),
        rate_limit_exceeded := s.rate_limit_exceeded })

/-- The HTTP exception raised by `enforce_rate_limit` on denial. -/
structure HTTPError where
  status_code : ℕ
  detail : String
deriving DecidableEq

/-- `enforce_rate_limit` from `governance.py`: run the check; on denial build
the 429 payload from the post-check ledger length and the configured limit.
The raised exception is modelled as a `some` result. -/
def enforce_rate_limit (limits : List (String × Int)) (user : String)
    (now : ℚ) (s : GovState) : Option HTTPError × GovState :=
  let r := check_rate_limit limits user now s
  if r.1 then (none, r.2)
  else
    let current := (ledgerOf r.2 user).length
    let limit := get_user_limit limits user
    (some { status_code := 429,
            detail := s!"Rate limit exceeded: {current}/{limit} requests per minute" },
     r.2)

/-- `get_user_stats` from `governance.py` returns this record. -/
structure UserStats where
  user : String
  requests_last_minute : ℕ
  rate_limit : Int
  remaining : Int
deriving DecidableEq

/-- `get_user_stats` from `governance.py`.  Lazily initialises a missing
entry to `[]`, counts the timestamps above the cutoff in a LOCAL list
(`recent_requests`), and returns the stats record.  Note: unlike
`check_rate_limit`, the filtered list is NOT written back to
`user_requests[user]`; the only mutation is the lazy initialisation. -/
def get_user_stats (limits : List (String × Int)) (user : String) (now : ℚ)
    (s : GovState) : UserStats × GovState :=
  let s1 : GovState :=
    match s.user_requests user with
    | none => { s with user_requests := setEntry s.user_requests user [] }
    | some _ => s
  let recent_requests := prune now (ledgerOf s1 user)
  let limit := get_user_limit limits user
  ({ user := user,
     requests_last_minute := recent_requests.length,
     rate_limit := limit,
     remaining := max 0 (limit - (recent_requests.length : Int)) }, s1)

/-- Module load of `governance.py`: the table is a literal dict assignment
executed at import time; the source performs no validation of the limit
values, so loading succeeds for every table. -/
def loadPolicyTable (t : List (String × Int)) :
    Except String (List (String × Int)) :=
  Except.ok t

/-- Outcome of one `/generate` request, as far as the governance layer is
concerned: the HTTP status, whether the backend RPC was reached, and whether
token accounting (`record_request` with token counts) was reached. -/
structure GenOutcome where
  status : ℕ
  backend_called : Bool
  tokens_recorded : Bool
deriving DecidableEq

/-- The admission-relevant control flow of `generate_text` in `main.py`:
an empty prompt is rejected with 400 before governance; then
`enforce_rate_limit(user)` runs, and a raised 429 propagates before
`ACTIVE_REQUESTS.inc()`, the backend `requests.post` and all token
accounting; only an admitted request reaches the backend call.  The backend
RPC itself and token counting are external collaborators; the model records
only whether the flow reaches them. -/
def generate_text (limits : List (String × Int)) (user prompt : String)
    (now : ℚ) (s : GovState) : GenOutcome × GovState :=
  if prompt = "" then
    ({ status := 400, backend_called := false, tokens_recorded := false }, s)
  else
    match enforce_rate_limit limits user now s with
    | (some e, s1) =>
      ({ status := e.status_code, backend_called := false,
         tokens_recorded := false }, s1)
    | (none, s1) =>
      ({ status := 200, backend_called := true, tokens_recorded := true }, s1)

/-- Run a sequence of admission checks for one user at the given clock
readings, collecting the decisions and threading the state. -/
def run_checks (limits : List (String × Int)) (user : String)
    (times : List ℚ) (s : GovState) : List Bool × GovState :=
  match times with
  | [] => ([], s)
  | t :: rest =>
    let r := check_rate_limit limits user t s
    let rr := run_checks limits user rest r.2
    (r.1 :: rr.1, rr.2)

/-- The initial process state: empty `user_requests`, all counters zero. -/
def init_state : GovState :=
  { user_requests := fun _ => none, rate_limit_exceeded := fun _ => 0 }

/-- A state whose ledger for user `"u"` holds one stale timestamp `0`
(outside the 60-second window of any observation time after 60). -/
def stale_state : GovState :=
  { user_requests := fun v => if v = "u" then some [0] else none,
    rate_limit_exceeded := fun _ => 0 }

/-- A state in which `"bob"` (limit 1) has one recorded timestamp `0`, i.e.
is exactly at his limit for any observation time in `(0, 60]`. -/
def bob_state : GovState :=
  { user_requests := fun v => if v = "bob" then some [0] else none,
    rate_limit_exceeded := fun _ => 0 }

/-! ## Basic lemmas about the embedded operations -/

theorem setEntry_same (m : String → Option (List ℚ)) (u : String) (l : List ℚ) :
    setEntry m u l u = some l := by
  simp [setEntry]

theorem setEntry_other (m : String → Option (List ℚ)) (u v : String)
    (l : List ℚ) (h : v ≠ u) : setEntry m u l v = m v := by
  simp [setEntry, h]

theorem incCounter_same (c : String → ℕ) (u : String) :
    incCounter c u u = c u + 1 := by
  simp [incCounter]

theorem incCounter_other (c : String → ℕ) (u v : String) (h : v ≠ u) :
    incCounter c u v = c v := by
  simp [incCounter, h]

theorem mem_prune (now t : ℚ) (ts : List ℚ) :
    t ∈ prune now ts ↔ t ∈ ts ∧ now - 60 < t := by
  simp [prune, List.mem_filter]

theorem prune_eq_self (now : ℚ) (ts : List ℚ) (h : ∀ t ∈ ts, now - 60 < t) :
    prune now ts = ts := by
  rw [prune, List.filter_eq_self]
  intro a ha
  exact decide_eq_true (h a ha)

theorem check_rate_limit_denied (limits : List (String × Int)) (u : String)
    (now : ℚ) (s : GovState)
    (h : get_user_limit limits u ≤ ((prune now (ledgerOf s u)).length : Int)) :
    check_rate_limit limits u now s =
      (false,
        { user_requests := setEntry s.user_requests u (prune now (ledgerOf s u)),
          rate_limit_exceeded := incCounter s.rate_limit_exceeded u }) := by
  simp [check_rate_limit, h]

theorem check_rate_limit_admitted (limits : List (String × Int)) (u : String)
    (now : ℚ) (s : GovState)
    (h : ((prune now (ledgerOf s u)).length : Int) < get_user_limit limits u) :
    check_rate_limit limits u now s =
      (true,
        { user_requests :=
            setEntry s.user_requests u (prune now (ledgerOf s u) ++ [now]),
          rate_limit_exceeded := s.rate_limit_exceeded }) := by
  simp [check_rate_limit, not_le.mpr h]

theorem get_user_stats_fst (limits : List (String × Int)) (u : String)
    (now : ℚ) (s : GovState) :
    (get_user_stats limits u now s).1 =
      { user := u,
        requests_last_minute := (prune now (ledgerOf s u)).length,
        rate_limit := get_user_limit limits u,
        remaining := max 0 (get_user_limit limits u -
          ((prune now (ledgerOf s u)).length : Int)) } := by
  cases h : s.user_requests u with
  | none => simp [get_user_stats, h, ledgerOf, setEntry_same]
  | some l => simp [get_user_stats, h, ledgerOf]

theorem get_user_stats_snd (limits : List (String × Int)) (u : String)
    (now : ℚ) (s : GovState) :
    (get_user_stats limits u now s).2.user_requests u = some (ledgerOf s u) ∧
    (∀ v, v ≠ u → (get_user_stats limits u now s).2.user_requests v =
      s.user_requests v) ∧
    (get_user_stats limits u now s).2.rate_limit_exceeded =
      s.rate_limit_exceeded := by
  cases h : s.user_requests u with
  | none =>
    refine ⟨?_, fun v hv => ?_, ?_⟩
    · simp [get_user_stats, h, ledgerOf, setEntry_same]
    · simp [get_user_stats, h, setEntry_other _ _ _ _ hv]
    · simp [get_user_stats, h]
  | some l =>
    refine ⟨?_, fun v hv => ?_, ?_⟩ <;> simp [get_user_stats, h, ledgerOf]

theorem dictGet_RATE_LIMITS_pos (u : String) (v : Int)
    (h : dictGet RATE_LIMITS u = some v) : 1 ≤ v := by
  simp only [RATE_LIMITS, dictGet] at h
  split at h <;> [skip; split at h <;> [skip; split at h <;> [skip; skip]]] <;>
    simp_all <;> omega

theorem get_user_limit_RATE_LIMITS_pos (u : String) :
    1 ≤ get_user_limit RATE_LIMITS u := by
  unfold get_user_limit
  cases hd : dictGet RATE_LIMITS u with
  | some v => simpa using dictGet_RATE_LIMITS_pos u v hd
  | none =>
    have h10 : dictGet RATE_LIMITS "default" = some 10 := by decide
    simp [h10]

theorem ledgerOf_setEntry (m : String → Option (List ℚ)) (c : String → ℕ)
    (u : String) (l : List ℚ) :
    ledgerOf { user_requests := setEntry m u l, rate_limit_exceeded := c } u =
      l := by
  simp [ledgerOf, setEntry]

theorem run_checks_cons (limits : List (String × Int)) (u : String) (t : ℚ)
    (rest : List ℚ) (s : GovState) :
    run_checks limits u (t :: rest) s =
      ((check_rate_limit limits u t s).1 ::
          (run_checks limits u rest (check_rate_limit limits u t s).2).1,
        (run_checks limits u rest (check_rate_limit limits u t s).2).2) := rfl

theorem map_range_decide_false (L : Int) (k : ℕ) (h : L ≤ (k : Int)) (m : ℕ) :
    (List.range m).map (fun (i : ℕ) => decide (((k : Int) + (i : Int)) < L)) =
      List.replicate m false := by
  induction m with
  | zero => simp
  | succ n ih =>
    have hd : decide (((k : Int) + ((n : ℕ) : Int)) < L) = false := by
      simp only [decide_eq_false_iff_not, not_lt]
      omega
    rw [List.range_succ, List.map_append, ih, List.replicate_succ']
    simp [hd]

/-- Running a sequence of checks for `u`, all inside one open 60-second
window that also contains every timestamp already on the books for `u`,
admits the i-th check exactly when `cur.length + i` is below the limit. -/
theorem run_checks_count (limits : List (String × Int)) (u : String)
    (times : List ℚ) (cur : List ℚ) (s : GovState)
    (hcur : ledgerOf s u = cur)
    (hsurv : ∀ x ∈ cur, ∀ t ∈ times, t - 60 < x)
    (hspan : ∀ t ∈ times, ∀ t' ∈ times, t - 60 < t') :
    (run_checks limits u times s).1 =
      (List.range times.length).map
        (fun (i : ℕ) => decide (((cur.length : Int) + (i : Int)) <
          get_user_limit limits u)) := by
  induction times generalizing cur s with
  | nil => simp [run_checks]
  | cons t rest ih =>
    have hpr : prune t (ledgerOf s u) = cur := by
      rw [hcur]
      exact prune_eq_self _ _ (fun x hx => hsurv x hx t (by simp))
    by_cases hk : get_user_limit limits u ≤ (cur.length : Int)
    · have hchk := check_rate_limit_denied limits u t s (by rw [hpr]; exact hk)
      have hled : ledgerOf (check_rate_limit limits u t s).2 u = cur := by
        rw [hchk]
        exact (ledgerOf_setEntry _ _ _ _).trans hpr
      have hres :=
        ih cur (check_rate_limit limits u t s).2 hled
          (fun x hx t' ht' => hsurv x hx t' (by simp [ht']))
          (fun a ha b hb => hspan a (by simp [ha]) b (by simp [hb]))
      simp only [run_checks_cons, List.length_cons]
      rw [hres, hchk, map_range_decide_false _ _ hk,
        map_range_decide_false _ _ hk, List.replicate_succ]
    · push_neg at hk
      have hchk := check_rate_limit_admitted limits u t s (by rw [hpr]; exact hk)
      have hled : ledgerOf (check_rate_limit limits u t s).2 u = cur ++ [t] := by
        rw [hchk]
        exact (ledgerOf_setEntry _ _ _ _).trans (by rw [hpr])
      have hsurv' : ∀ x ∈ cur ++ [t], ∀ t' ∈ rest, t' - 60 < x := by
        intro x hx t' ht'
        rcases List.mem_append.1 hx with h | h
        · exact hsurv x h t' (by simp [ht'])
        · simp only [List.mem_singleton] at h
          rw [h]
          exact hspan t' (by simp [ht']) t (by simp)
      have hres :=
        ih (cur ++ [t]) (check_rate_limit limits u t s).2 hled hsurv'
          (fun a ha b hb => hspan a (by simp [ha]) b (by simp [hb]))
      simp only [run_checks_cons, List.length_cons]
      rw [hres, hchk, List.range_succ_eq_map, List.map_cons, List.map_map]
      congr 1
      · simp [hk]
      · apply List.map_congr_left
        intro i _
        simp only [Function.comp_apply]
        refine decide_eq_decide.mpr ?_
        push_cast [List.length_append, List.length_singleton]
        omega

theorem map_range_decide_lt (L : ℕ) :
    (List.range (L + 1)).map (fun (i : ℕ) => decide (((i : ℕ) : Int) < (L : Int))) =
      List.replicate L true ++ [false] := by
  rw [List.range_succ, List.map_append]
  congr 1
  · apply List.eq_replicate_iff.2
    refine ⟨by simp, ?_⟩
    intro b hb
    simp only [List.mem_map, List.mem_range] at hb
    obtain ⟨i, hi, rfl⟩ := hb
    exact decide_eq_true (by exact_mod_cast hi)
  · simp

/-! ## Claim theorems -/

/-- C1: for every user `u` with configured limit `L` (their table entry, or
the default if absent, via `get_user_limit`) and an empty recent history, a
sequence of `L + 1` admission checks for `u` all occurring within one
60-second span yields ADMITTED for the first `L` checks and DENIED for the
`(L+1)`th: the check uses `>=`, so a user whose post-prune count equals `L`
is denied. -/
theorem C1_window_correctness (limits : List (String × Int)) (u : String)
    (L : ℕ) (hL : (L : Int) = get_user_limit limits u)
    (times : List ℚ) (hlen : times.length = L + 1)
    (a : ℚ) (hspan : ∀ t ∈ times, a ≤ t ∧ t < a + 60)
    (s : GovState) (hempty : ledgerOf s u = []) :
    (run_checks limits u times s).1 = List.replicate L true ++ [false] := by
  have hspan' : ∀ t ∈ times, ∀ t' ∈ times, t - 60 < t' := by
    intro t ht t' ht'
    have h1 := hspan t ht
    have h2 := hspan t' ht'
    linarith [h1.1, h1.2, h2.1, h2.2]
  have h := run_checks_count limits u times [] s hempty (by simp) hspan'
  rw [h, hlen, ← hL]
  simp only [List.length_nil, Nat.cast_zero, zero_add]
  exact map_range_decide_lt L

/-- C1 witness: Bob (limit 1), two checks at `t = 0` and `t = 1/2`: the
first is admitted, the second denied. -/
theorem C1_witness :
    (((1 : ℕ) : Int) = get_user_limit RATE_LIMITS "bob") ∧
    ([(0 : ℚ), 1/2].length = 1 + 1) ∧
    (∀ t ∈ [(0 : ℚ), 1/2], (0 : ℚ) ≤ t ∧ t < 0 + 60) ∧
    ledgerOf init_state "bob" = [] ∧
    (run_checks RATE_LIMITS "bob" [0, 1/2] init_state).1 =
      List.replicate 1 true ++ [false] :=
  ⟨by decide, by decide,
   by intro t ht; fin_cases ht <;> norm_num,
   rfl,
   C1_window_correctness RATE_LIMITS "bob" 1 (by decide) [0, 1/2] (by decide)
     0 (by intro t ht; fin_cases ht <;> norm_num) init_state rfl⟩

/-- C7: `prune` removes exactly the timestamps `≤ now − 60` from the
sequence (an element is kept iff it was present and is `> now − 60`), and
pruning is idempotent: pruning twice at the same `now` equals pruning
once. -/
theorem C7_prune_exact_and_idempotent (now : ℚ) (ts : List ℚ) :
    (∀ t : ℚ, t ∈ prune now ts ↔ t ∈ ts ∧ now - 60 < t) ∧
    prune now (prune now ts) = prune now ts :=
  ⟨fun t => mem_prune now t ts, by simp [prune, List.filter_filter]⟩

/-- C7 witness: pruning `[0, 70]` at `now = 100` keeps exactly `70`. -/
theorem C7_witness :
    ((0 : ℚ) ∈ prune 100 [0, 70] ↔ (0 : ℚ) ∈ [(0 : ℚ), 70] ∧ (100 : ℚ) - 60 < 0) ∧
    prune 100 (prune 100 [0, 70]) = prune 100 [0, 70] :=
  ⟨(C7_prune_exact_and_idempotent 100 [0, 70]).1 0,
   (C7_prune_exact_and_idempotent 100 [0, 70]).2⟩

/-- C9: sliding recovery — a user whose stored sequence is exactly at the
limit is admitted again as soon as any counted timestamp has fallen outside
the trailing 60-second window (is `≤ now − 60`), with no reference to when
the denial happened. -/
theorem C9_sliding_recovery (limits : List (String × Int)) (u : String)
    (now : ℚ) (s : GovState) (ts : List ℚ) (x : ℚ)
    (hts : ledgerOf s u = ts)
    (hlen : (ts.length : Int) = get_user_limit limits u)
    (hx : x ∈ ts) (hold : x ≤ now - 60) :
    (check_rate_limit limits u now s).1 = true := by
  have hfx : (decide (now - 60 < x)) = false := by
    simp only [decide_eq_false_iff_not, not_lt]
    exact hold
  have hlt : ((prune now (ledgerOf s u)).length : Int) <
      get_user_limit limits u := by
    rw [hts, ← hlen]
    have : (prune now ts).length < ts.length := by
      rw [prune]
      exact List.length_filter_lt_length_iff_exists.mpr ⟨x, hx, by simp [hfx]⟩
    exact_mod_cast this
  rw [check_rate_limit_admitted limits u now s hlt]

/-- C9 witness: the spec's concrete scenario — Bob (limit 1) admitted at
`t = 0`, denied at `t = 0.1`, and admitted again at `t = 61` because the
window slid past the `t = 0` entry. -/
theorem C9_witness :
    (run_checks RATE_LIMITS "bob" [0, 1/10] init_state).1 = [true, false] ∧
    ledgerOf (run_checks RATE_LIMITS "bob" [0, 1/10] init_state).2 "bob" =
      [0] ∧
    (check_rate_limit RATE_LIMITS "bob" 61
      (run_checks RATE_LIMITS "bob" [0, 1/10] init_state).2).1 = true :=
  ⟨by norm_num +decide [run_checks, check_rate_limit, prune, ledgerOf,
      init_state, setEntry, incCounter, get_user_limit, dictGet, RATE_LIMITS,
      List.filter],
   by norm_num +decide [run_checks, check_rate_limit, prune, ledgerOf,
      init_state, setEntry, incCounter, get_user_limit, dictGet, RATE_LIMITS,
      List.filter],
   C9_sliding_recovery RATE_LIMITS "bob" 61 _ [0] 0
     (by norm_num +decide [run_checks, check_rate_limit, prune, ledgerOf,
        init_state, setEntry, incCounter, get_user_limit, dictGet,
        RATE_LIMITS, List.filter])
     (by decide) (by norm_num) (by norm_num)⟩

/-- C3 counterexample: with a stale timestamp `0` on the books for `"u"`, a
stats read at `now = 100` returns, yet the stored ledger sequence still
contains `0`, which is `≤ now − 60 = 40` — `get_user_stats` did NOT perform
the admission path's pruning side effect on the store. -/
theorem C3_counterexample :
    (get_user_stats RATE_LIMITS "u" 100 stale_state).2.user_requests "u" =
      some [0] ∧ (0 : ℚ) ≤ (100 : ℚ) - 60 :=
  ⟨by norm_num +decide [get_user_stats, prune, ledgerOf, stale_state,
      setEntry, get_user_limit, dictGet, RATE_LIMITS, List.filter],
   by norm_num⟩

/-- C3 (amended): the stats read computes its count over the pruned view but
never writes the pruned list back: after `snapshot(u)` the stored sequence
for `u` is exactly what it was before (or `[]` if `u` was absent), stale
timestamps included; other users' entries and the rejection counters are
untouched, and no timestamp is ever appended. -/
theorem C3_stats_read_no_store_prune (limits : List (String × Int))
    (u : String) (now : ℚ) (s : GovState) :
    (get_user_stats limits u now s).2.user_requests u =
      some (ledgerOf s u) ∧
    (∀ v, v ≠ u → (get_user_stats limits u now s).2.user_requests v =
      s.user_requests v) ∧
    (get_user_stats limits u now s).2.rate_limit_exceeded =
      s.rate_limit_exceeded ∧
    (get_user_stats limits u now s).1.requests_last_minute =
      (prune now (ledgerOf s u)).length :=
  ⟨(get_user_stats_snd limits u now s).1,
   (get_user_stats_snd limits u now s).2.1,
   (get_user_stats_snd limits u now s).2.2,
   by rw [get_user_stats_fst]⟩

/-- C3 witness: the amended statement instantiated on the stale state, with
the untouched-other-user clause instantiated at `"w" ≠ "u"`. -/
theorem C3_witness :
    (get_user_stats RATE_LIMITS "u" 100 stale_state).2.user_requests "u" =
      some (ledgerOf stale_state "u") ∧
    (get_user_stats RATE_LIMITS "u" 100 stale_state).2.user_requests "w" =
      stale_state.user_requests "w" ∧
    (get_user_stats RATE_LIMITS "u" 100 stale_state).1.requests_last_minute =
      (prune 100 (ledgerOf stale_state "u")).length :=
  ⟨(C3_stats_read_no_store_prune RATE_LIMITS "u" 100 stale_state).1,
   (C3_stats_read_no_store_prune RATE_LIMITS "u" 100 stale_state).2.1 "w"
     (by decide),
   (C3_stats_read_no_store_prune RATE_LIMITS "u" 100 stale_state).2.2.2⟩

/-- C5: `snapshot(user)` always succeeds (it is a total function) and
returns `{ user, requests_last_minute, rate_limit, remaining }` with
`remaining = max 0 (rate_limit − requests_last_minute)`; for a user with no
prior activity it returns `requests_last_minute = 0` and
`remaining = rate_limit`. -/
theorem C5_snapshot_contract (u : String) (now : ℚ) (s : GovState) :
    (get_user_stats RATE_LIMITS u now s).1.user = u ∧
    (get_user_stats RATE_LIMITS u now s).1.rate_limit =
      get_user_limit RATE_LIMITS u ∧
    (get_user_stats RATE_LIMITS u now s).1.remaining =
      max 0 ((get_user_stats RATE_LIMITS u now s).1.rate_limit -
        ((get_user_stats RATE_LIMITS u now s).1.requests_last_minute : Int)) ∧
    (s.user_requests u = none →
      (get_user_stats RATE_LIMITS u now s).1.requests_last_minute = 0 ∧
      (get_user_stats RATE_LIMITS u now s).1.remaining =
        (get_user_stats RATE_LIMITS u now s).1.rate_limit) := by
  rw [get_user_stats_fst]
  refine ⟨rfl, rfl, rfl, fun h => ?_⟩
  have hl : ledgerOf s u = [] := by simp [ledgerOf, h]
  rw [hl]
  have hpos := get_user_limit_RATE_LIMITS_pos u
  constructor
  · simp [prune]
  · simp only [prune, List.filter_nil, List.length_nil, Nat.cast_zero,
      sub_zero]
    omega

/-- C5 witness: a snapshot for the never-seen user `"carol"` at `now = 5`
from the initial state. -/
theorem C5_witness :
    (get_user_stats RATE_LIMITS "carol" 5 init_state).1.user = "carol" ∧
    ((get_user_stats RATE_LIMITS "carol" 5 init_state).1.requests_last_minute
      = 0 ∧
     (get_user_stats RATE_LIMITS "carol" 5 init_state).1.remaining =
      (get_user_stats RATE_LIMITS "carol" 5 init_state).1.rate_limit) :=
  ⟨(C5_snapshot_contract "carol" 5 init_state).1,
   (C5_snapshot_contract "carol" 5 init_state).2.2.2 rfl⟩

/-- C6: when an admission check denies, the rejection counter labelled with
the user is incremented (and no other user's counter moves), no timestamp is
recorded — the user's stored sequence becomes exactly the pruned sequence,
other users' sequences are untouched — and for the corresponding `/generate`
request no backend call and no token accounting occurs: the flow
short-circuits with a 429. -/
theorem C6_denial_effects (limits : List (String × Int)) (u prompt : String)
    (now : ℚ) (s : GovState)
    (hden : (check_rate_limit limits u now s).1 = false)
    (hp : prompt ≠ "") :
    (check_rate_limit limits u now s).2.rate_limit_exceeded u =
      s.rate_limit_exceeded u + 1 ∧
    (∀ v, v ≠ u → (check_rate_limit limits u now s).2.rate_limit_exceeded v =
      s.rate_limit_exceeded v) ∧
    (check_rate_limit limits u now s).2.user_requests u =
      some (prune now (ledgerOf s u)) ∧
    (∀ v, v ≠ u → (check_rate_limit limits u now s).2.user_requests v =
      s.user_requests v) ∧
    (generate_text limits u prompt now s).1.backend_called = false ∧
    (generate_text limits u prompt now s).1.tokens_recorded = false ∧
    (generate_text limits u prompt now s).1.status = 429 := by
  have hle : get_user_limit limits u ≤
      ((prune now (ledgerOf s u)).length : Int) := by
    by_contra hlt
    push_neg at hlt
    rw [check_rate_limit_admitted limits u now s hlt] at hden
    simp at hden
  have hchk := check_rate_limit_denied limits u now s hle
  have hgen : (generate_text limits u prompt now s).1 =
      { status := 429, backend_called := false, tokens_recorded := false } := by
    simp [generate_text, hp, enforce_rate_limit, hchk]
  refine ⟨?_, fun v hv => ?_, ?_, fun v hv => ?_, ?_, ?_, ?_⟩
  · rw [hchk]
    exact incCounter_same _ _
  · rw [hchk]
    exact incCounter_other _ _ _ hv
  · rw [hchk]
    exact setEntry_same _ _ _
  · rw [hchk]
    exact setEntry_other _ _ _ _ hv
  · rw [hgen]
  · rw [hgen]
  · rw [hgen]

/-- C6 witness: Bob is at his limit in `bob_state`; a check at `t = 30`
denies, bumps only his counter, stores the pruned sequence unchanged, and
the `/generate` flow returns 429 without reaching the backend. -/
theorem C6_witness :
    (check_rate_limit RATE_LIMITS "bob" 30 bob_state).1 = false ∧
    (check_rate_limit RATE_LIMITS "bob" 30 bob_state).2.rate_limit_exceeded
      "bob" = bob_state.rate_limit_exceeded "bob" + 1 ∧
    (generate_text RATE_LIMITS "bob" "hi" 30 bob_state).1.backend_called =
      false ∧
    (generate_text RATE_LIMITS "bob" "hi" 30 bob_state).1.status = 429 :=
  have hden : (check_rate_limit RATE_LIMITS "bob" 30 bob_state).1 = false := by
    norm_num +decide [check_rate_limit, prune, ledgerOf, bob_state, setEntry,
      incCounter, get_user_limit, dictGet, RATE_LIMITS, List.filter]
  ⟨hden,
   (C6_denial_effects RATE_LIMITS "bob" "hi" 30 bob_state hden
     (by decide)).1,
   (C6_denial_effects RATE_LIMITS "bob" "hi" 30 bob_state hden
     (by decide)).2.2.2.2.1,
   (C6_denial_effects RATE_LIMITS "bob" "hi" 30 bob_state hden
     (by decide)).2.2.2.2.2.2⟩

/-- C8 counterexample: the invariant claimed for "every stats read" fails —
a stats read for `"u"` at `now = 100` leaves the stale timestamp `0` in the
stored sequence although `0 < now − 60`: the read does not re-establish the
post-prune bound on the store. -/
theorem C8_counterexample :
    (get_user_stats RATE_LIMITS "u" 100 stale_state).2.user_requests "u" =
      some [0] ∧ ¬ ((100 : ℚ) - 60 ≤ 0) :=
  ⟨by norm_num +decide [get_user_stats, prune, ledgerOf, stale_state,
      setEntry, get_user_limit, dictGet, RATE_LIMITS, List.filter],
   by norm_num⟩

/-- C8 (amended): every ADMISSION CHECK re-establishes the ledger invariant
for the checked user: afterwards every stored timestamp is `> now − 60`
(hence `≥ now − 60`), and the stored sequence stays sorted provided it was
sorted and the clock did not go backwards.  (Stats reads leave the stored
sequence unchanged, so they do not re-establish the bound; see the
counterexample.) -/
theorem C8_check_establishes_invariant (limits : List (String × Int))
    (u : String) (now : ℚ) (s : GovState) :
    (∀ t ∈ ledgerOf (check_rate_limit limits u now s).2 u, now - 60 ≤ t) ∧
    (List.Sorted (· ≤ ·) (ledgerOf s u) → (∀ t ∈ ledgerOf s u, t ≤ now) →
      List.Sorted (· ≤ ·) (ledgerOf (check_rate_limit limits u now s).2 u)) := by
  have hsub : ∀ t ∈ prune now (ledgerOf s u), now - 60 < t := by
    intro t ht
    exact ((mem_prune now t _).1 ht).2
  have hsort : List.Sorted (· ≤ ·) (ledgerOf s u) →
      List.Sorted (· ≤ ·) (prune now (ledgerOf s u)) := by
    intro h
    exact h.sublist (List.filter_sublist _)
  by_cases hk : get_user_limit limits u ≤
      ((prune now (ledgerOf s u)).length : Int)
  · rw [check_rate_limit_denied limits u now s hk]
    rw [ledgerOf_setEntry]
    refine ⟨fun t ht => le_of_lt (hsub t ht), fun h _ => hsort h⟩
  · push_neg at hk
    rw [check_rate_limit_admitted limits u now s hk]
    rw [ledgerOf_setEntry]
    constructor
    · intro t ht
      rcases List.mem_append.1 ht with h | h
      · exact le_of_lt (hsub t h)
      · simp only [List.mem_singleton] at h
        rw [h]
        linarith
    · intro h hle
      rw [List.Sorted, List.pairwise_append]
      refine ⟨hsort h, by simp, ?_⟩
      intro x hx y hy
      simp only [List.mem_singleton] at hy
      rw [hy]
      exact hle x ((mem_prune now x _).1 hx).1

/-- C8 witness: after Bob's denied check at `t = 30` the stored timestamp
`0` satisfies `30 − 60 ≤ 0`, and sortedness is preserved. -/
theorem C8_witness :
    (30 : ℚ) - 60 ≤ 0 ∧
    List.Sorted (· ≤ ·)
      (ledgerOf (check_rate_limit RATE_LIMITS "bob" 30 bob_state).2 "bob") :=
  ⟨(C8_check_establishes_invariant RATE_LIMITS "bob" 30 bob_state).1 0
     (by norm_num +decide [check_rate_limit, prune, ledgerOf, bob_state,
        setEntry, incCounter, get_user_limit, dictGet, RATE_LIMITS,
        List.filter]),
   (C8_check_establishes_invariant RATE_LIMITS "bob" 30 bob_state).2
     (by simp [ledgerOf, bob_state])
     (by intro t ht; simp [ledgerOf, bob_state] at ht; rw [ht]; norm_num)⟩

/-- C2 counterexample: the code has no load-time validation.  Loading a
table whose default limit is `0` succeeds (the claim says the service must
not start), and the malformed limit IS consulted at request time: the very
first check for a fresh user reads limit `0` and denies. -/
theorem C2_counterexample :
    loadPolicyTable [("default", 0)] = Except.ok [("default", 0)] ∧
    get_user_limit [("default", 0)] "carol" = 0 ∧
    (check_rate_limit [("default", 0)] "carol" 0 init_state).1 = false :=
  ⟨rfl, by decide, by decide⟩

/-- C2 (amended): the source performs no load-time validation at all —
loading any policy table succeeds, including tables with non-positive
limits, which are instead consulted at request time, where a non-positive
limit denies every request unconditionally.  The shipped `RATE_LIMITS`
table happens to contain only positive limits (every lookup yields `≥ 1`). -/
theorem C2_no_load_validation (t : List (String × Int)) (u : String)
    (now : ℚ) (s : GovState) (h : get_user_limit t u ≤ 0) :
    loadPolicyTable t = Except.ok t ∧
    1 ≤ get_user_limit RATE_LIMITS u ∧
    (check_rate_limit t u now s).1 = false := by
  refine ⟨rfl, get_user_limit_RATE_LIMITS_pos u, ?_⟩
  have hle : get_user_limit t u ≤
      ((prune now (ledgerOf s u)).length : Int) := by
    have h0 : (0 : Int) ≤ ((prune now (ledgerOf s u)).length : Int) :=
      Int.ofNat_nonneg _
    omega
  rw [check_rate_limit_denied t u now s hle]

/-- C2 witness: the amended statement at the zero-default table. -/
theorem C2_witness :
    get_user_limit [("default", 0)] "carol" ≤ 0 ∧
    loadPolicyTable [("default", 0)] = Except.ok [("default", 0)] ∧
    1 ≤ get_user_limit RATE_LIMITS "carol" ∧
    (check_rate_limit [("default", 0)] "carol" 0 init_state).1 = false :=
  ⟨by decide,
   (C2_no_load_validation [("default", 0)] "carol" 0 init_state
     (by decide)).1,
   (C2_no_load_validation [("default", 0)] "carol" 0 init_state
     (by decide)).2.1,
   (C2_no_load_validation [("default", 0)] "carol" 0 init_state
     (by decide)).2.2⟩

/-- C10: a stats query for a never-seen user mutates the shared ledger —
`snapshot(u)` inserts an empty sequence for `u` into the process-wide
ledger before returning — even though the returned snapshot is exactly the
pure zero-usage record determined by the policy table alone. -/
theorem C10_stats_query_inserts_entry (limits : List (String × Int))
    (u : String) (now : ℚ) (s : GovState) (h : s.user_requests u = none) :
    (get_user_stats limits u now s).2.user_requests u = some [] ∧
    (get_user_stats limits u now s).1 =
      { user := u, requests_last_minute := 0,
        rate_limit := get_user_limit limits u,
        remaining := max 0 (get_user_limit limits u) } := by
  have hl : ledgerOf s u = [] := by simp [ledgerOf, h]
  constructor
  · have h1 := (get_user_stats_snd limits u now s).1
    rw [h1, hl]
  · rw [get_user_stats_fst, hl]
    simp [prune]

/-- C10 witness: a stats read for the never-seen `"carol"` from the initial
state (where her entry is absent) inserts `some []` for her. -/
theorem C10_witness :
    init_state.user_requests "carol" = none ∧
    (get_user_stats RATE_LIMITS "carol" 5 init_state).2.user_requests
      "carol" = some [] ∧
    (get_user_stats RATE_LIMITS "carol" 5 init_state).1 =
      { user := "carol", requests_last_minute := 0,
        rate_limit := get_user_limit RATE_LIMITS "carol",
        remaining := max 0 (get_user_limit RATE_LIMITS "carol") } :=
  ⟨rfl,
   (C10_stats_query_inserts_entry RATE_LIMITS "carol" 5 init_state rfl).1,
   (C10_stats_query_inserts_entry RATE_LIMITS "carol" 5 init_state rfl).2⟩
